import Mathlib

/-!
Verification development for the BEER battleship repository.

The definitions below are shallow embeddings of the Python sources:
  packet.py      : pack_packet, unpack_packet, recv_full, receive_packet
  server.py      : the packet-consuming read loop of handle_client_input
  battleship.py  : Board, placement, fire_at, parse_coordinate, and the
                   turn-phase event handling of run_multiplayer_game
Bytes are modelled as natural numbers (values below 256 where relevant),
Python 2D list grids as functions from coordinates to characters, Python
sets of cells as finite sets, and Python dictionaries keyed by usernames
as functions from strings.
-/

set_option maxRecDepth 8000

namespace BEER

/-! ### packet.py -/

/-- Embedding of pack_packet (packet.py): header is seq(2) | type(1) |
payload_len(2) big-endian, followed by the payload and a one-byte additive
checksum over everything before it. -/
def pack_packet (seq_num pktType : Nat) (payload_bytes : List Nat) : List Nat :=
  let payload_len := payload_bytes.length
  let header : List Nat :=
    [seq_num / 256, seq_num % 256, pktType, payload_len / 256, payload_len % 256]
  let body := header ++ payload_bytes
  let checksum := body.sum % 256
  body ++ [checksum]

/-- Embedding of unpack_packet (packet.py). A ValueError in the source is an
error result here, carrying the same message. The payload_len field is
extracted from the header but never used, exactly as in the source. -/
def unpack_packet (packet_bytes : List Nat) : Except String (Nat × Nat × List Nat) :=
  if packet_bytes.length < 6 then .error "Packet too short"
  else
    let seq := 256 * packet_bytes.getD 0 0 + packet_bytes.getD 1 0
    let pkt_type := packet_bytes.getD 2 0
    let payload_len := 256 * packet_bytes.getD 3 0 + packet_bytes.getD 4 0
    let payload := packet_bytes.dropLast.drop 5
    let recv_sum := packet_bytes.getLast?.getD 0
    let calc_sum := packet_bytes.dropLast.sum % 256
    if recv_sum ≠ calc_sum then .error "Checksum mismatch"
    else .ok (seq, pkt_type, payload)

/-- Embedding of recv_full (packet.py) on an explicit byte stream: reading n
bytes either yields those bytes plus the remaining stream, or fails like the
ConnectionError raised when the peer closed the connection. -/
def recv_full (stream : List Nat) (n : Nat) : Option (List Nat × List Nat) :=
  if stream.length < n then none else some (stream.take n, stream.drop n)

/-- Embedding of receive_packet (packet.py): reads the 5-byte header, then
payload_len bytes of payload, then the checksum byte, reassembles the frame
and unpacks it. A ConnectionError propagates (error); a ValueError from
unpack_packet is caught and turned into the None return of the source
(ok none). On success the decoded triple and the rest of the stream are
returned. -/
def receive_packet (stream : List Nat) :
    Except String (Option ((Nat × Nat × List Nat) × List Nat)) :=
  match recv_full stream 5 with
  | none => .error "Connection closed"
  | some (header, rest1) =>
    let payload_len := 256 * header.getD 3 0 + header.getD 4 0
    match recv_full rest1 payload_len with
    | none => .error "Connection closed"
    | some (payload, rest2) =>
      match recv_full rest2 1 with
      | none => .error "Connection closed"
      | some (checksum, rest3) =>
        let packet_bytes := header ++ payload ++ checksum
        match unpack_packet packet_bytes with
        | .ok r => .ok (some (r, rest3))
        | .error _ => .ok none

/-! ### server.py, handle_client_input read loop -/

/-- What one iteration of the handle_client_input loop (server.py) does with
the next frame of the stream. -/
inductive ClientAction where
  /-- The loop ends and the finally block calls remove_client: either the
  loop body hit `if not result: break` (receive_packet returned None), or an
  exception such as ConnectionError escaped the loop. -/
  | removeClient : ClientAction
  /-- A packet decoded: its payload is processed as a line and the loop
  continues on the rest of the stream. -/
  | processLine (payload : List Nat) (rest : List Nat) : ClientAction
deriving DecidableEq

/-- Embedding of one iteration of the read loop in handle_client_input
(server.py): result = receive_packet(conn); if not result: break — and every
way out of the loop runs remove_client(client_id) in the finally block. -/
def handle_client_step (stream : List Nat) : ClientAction :=
  match receive_packet stream with
  | .error _ => .removeClient
  | .ok none => .removeClient
  | .ok (some ((_seq, _pkt_type, payload), rest)) => .processLine payload rest

/-! ### helper lemmas about list surgery used by the checksum arguments -/

lemma sum_set_add (l : List Nat) (i a : Nat) (h : i < l.length) :
    (l.set i a).sum + l.getD i 0 = l.sum + a := by
  induction l generalizing i with
  | nil => simp at h
  | cons x xs ih =>
    cases i with
    | zero => simp [List.set, List.getD]; omega
    | succ j =>
      simp only [List.set, List.sum_cons, List.getD_cons_succ]
      have := ih j (by simpa using h)
      omega

lemma dropLast_set (l : List Nat) (i a : Nat) :
    (l.set i a).dropLast = l.dropLast.set i a := by
  rw [List.dropLast_eq_take, List.dropLast_eq_take, List.length_set, List.set_take]

lemma getLast?_set (l : List Nat) (i a : Nat) (h : i + 1 < l.length) :
    (l.set i a).getLast? = l.getLast? := by
  rw [List.getLast?_eq_getElem?, List.getLast?_eq_getElem?, List.length_set,
    List.getElem?_set_ne (by omega)]

lemma getD_dropLast (l : List Nat) (i : Nat) (h : i + 1 < l.length) :
    l.dropLast.getD i 0 = l.getD i 0 := by
  induction l generalizing i with
  | nil => simp at h
  | cons x xs ih =>
    cases xs with
    | nil => simp at h
    | cons y ys =>
      cases i with
      | zero => simp [List.dropLast_cons_of_ne_nil]
      | succ j =>
        have hh : j + 1 < (y :: ys).length := by simpa using h
        rw [List.dropLast_cons_of_ne_nil (by simp)]
        simpa using ih j hh

/-! ### C6: codec round trip -/

/-- C6: for every seq in 0..65535, packet type in 0..255, and payload of at
most 65535 bytes, unpack_packet inverts pack_packet, returning exactly the
original sequence number, type and payload with no error. -/
theorem unpack_pack_roundtrip (seq_num pktType : Nat) (payload_bytes : List Nat)
    (hseq : seq_num ≤ 65535) (hty : pktType ≤ 255)
    (hlen : payload_bytes.length ≤ 65535) :
    unpack_packet (pack_packet seq_num pktType payload_bytes) =
      .ok (seq_num, pktType, payload_bytes) := by
  unfold pack_packet unpack_packet
  simp only []
  have hlength :
      ¬ (([seq_num / 256, seq_num % 256, pktType, payload_bytes.length / 256,
           payload_bytes.length % 256] ++ payload_bytes) ++
          [(([seq_num / 256, seq_num % 256, pktType, payload_bytes.length / 256,
             payload_bytes.length % 256] ++ payload_bytes).sum % 256)]).length < 6 := by
    simp
  rw [if_neg hlength]
  rw [List.dropLast_concat, List.getLast?_concat]
  simp only [List.cons_append, List.nil_append, List.getD_cons_zero,
    List.getD_cons_succ, Option.getD_some, List.drop_succ_cons, List.drop_zero,
    ne_eq, not_true_eq_false, if_false, ite_not]
  have h256 : 256 * (seq_num / 256) + seq_num % 256 = seq_num := by omega
  rw [h256]

/-- Witness for the round trip at a concrete packet. -/
theorem unpack_pack_roundtrip_witness :
    258 ≤ 65535 ∧ 1 ≤ 255 ∧ ([72, 105] : List Nat).length ≤ 65535 ∧
      unpack_packet (pack_packet 258 1 [72, 105]) = .ok (258, 1, [72, 105]) :=
  ⟨by decide, by decide, by decide,
    unpack_pack_roundtrip 258 1 [72, 105] (by decide) (by decide) (by decide)⟩

/-! ### C7: single-byte corruption outside the checksum is always detected -/

/-- C7: take any well-formed frame (length at least 6 and a checksum byte
that matches the additive checksum of everything before it) and change
exactly one byte in the non-checksum region to a different byte value; then
unpack_packet rejects the corrupted frame with the checksum mismatch error.
In particular any single bit flip outside the checksum byte is detected. -/
theorem single_byte_corruption_detected (bs : List Nat) (i v : Nat)
    (hlen : 6 ≤ bs.length)
    (hck : bs.getLast?.getD 0 = bs.dropLast.sum % 256)
    (hi : i + 1 < bs.length)
    (hv : v < 256) (hold : bs.getD i 0 < 256) (hne : v ≠ bs.getD i 0) :
    unpack_packet (bs.set i v) = .error "Checksum mismatch" := by
  unfold unpack_packet
  have hlen' : ¬ (bs.set i v).length < 6 := by
    rw [List.length_set]; omega
  rw [if_neg hlen']
  have hdrop : (bs.set i v).dropLast = bs.dropLast.set i v := dropLast_set bs i v
  have hlast : (bs.set i v).getLast? = bs.getLast? := getLast?_set bs i v hi
  have hidrop : i < bs.dropLast.length := by
    rw [List.length_dropLast]; omega
  have hsum : (bs.dropLast.set i v).sum + bs.dropLast.getD i 0 =
      bs.dropLast.sum + v := sum_set_add bs.dropLast i v hidrop
  have hgd : bs.dropLast.getD i 0 = bs.getD i 0 := getD_dropLast bs i hi
  have hmismatch : (bs.set i v).getLast?.getD 0 ≠ (bs.set i v).dropLast.sum % 256 := by
    rw [hlast, hdrop, hck]
    intro heq
    have hmodeq : bs.dropLast.sum % 256 = (bs.dropLast.set i v).sum % 256 := heq
    have h2 : (bs.dropLast.sum + v) % 256 = ((bs.dropLast.set i v).sum + v) % 256 := by
      omega
    rw [← hsum, hgd] at h2
    omega
  rw [if_pos hmismatch]

/-- Witness: flipping one bit of the payload byte of a concrete packed frame
is rejected as a checksum mismatch. -/
theorem single_byte_corruption_detected_witness :
    6 ≤ ([0, 1, 2, 0, 1, 65, 69] : List Nat).length ∧
      ([0, 1, 2, 0, 1, 65, 69] : List Nat).getLast?.getD 0 =
        ([0, 1, 2, 0, 1, 65, 69] : List Nat).dropLast.sum % 256 ∧
      unpack_packet (([0, 1, 2, 0, 1, 65, 69] : List Nat).set 5 64) =
        .error "Checksum mismatch" :=
  ⟨by decide, by decide,
    single_byte_corruption_detected [0, 1, 2, 0, 1, 65, 69] 5 64
      (by decide) (by decide) (by decide) (by decide) (by decide) (by decide)⟩

/-! ### C10: unpack_packet never checks the payload_len field -/

/-- C10: any byte string of length at least 6 whose final byte equals the sum
of the preceding bytes mod 256 decodes to (bytes 0..1 big-endian, byte 2,
bytes 5 through second-to-last); the payload_len field at bytes 3..4 is never
compared against the actual payload length, so a frame whose payload_len
field disagrees with the real payload length still decodes successfully. -/
theorem unpack_ignores_payload_len (bs : List Nat)
    (hlen : 6 ≤ bs.length)
    (hck : bs.getLast?.getD 0 = bs.dropLast.sum % 256) :
    unpack_packet bs =
      .ok (256 * bs.getD 0 0 + bs.getD 1 0, bs.getD 2 0, bs.dropLast.drop 5) := by
  unfold unpack_packet
  rw [if_neg (by omega)]
  simp [hck]

/-- Witness: a frame whose payload_len field (0x0909 = 2313) disagrees with
its actual one-byte payload still decodes because the checksum matches. -/
theorem unpack_ignores_payload_len_witness :
    6 ≤ ([0, 1, 2, 9, 9, 65, 86] : List Nat).length ∧
      ([0, 1, 2, 9, 9, 65, 86] : List Nat).getLast?.getD 0 =
        ([0, 1, 2, 9, 9, 65, 86] : List Nat).dropLast.sum % 256 ∧
      256 * 9 + 9 ≠ (([0, 1, 2, 9, 9, 65, 86] : List Nat).dropLast.drop 5).length ∧
      unpack_packet [0, 1, 2, 9, 9, 65, 86] = .ok (1, 2, [65]) :=
  ⟨by decide, by decide, by decide, by
    have h := unpack_ignores_payload_len [0, 1, 2, 9, 9, 65, 86] (by decide) (by decide)
    simpa using h⟩

/-! ### C5: a checksum mismatch ends the session and removes the client -/

/-- C5 evaluation: for the concrete frame 00 00 01 00 01 41 63 (seq 0, type 1,
payload_len 1, payload 0x41, checksum byte 99 where the correct additive
checksum is 67): unpack_packet raises exactly the checksum mismatch error,
receive_packet catches it and returns the None of the source, and the
handle_client_input loop in server.py reacts to that None by breaking out of
its read loop, after which its finally block calls remove_client — the
session does not continue and the client is taken out of the registry. -/
theorem corrupted_packet_removes_client :
    unpack_packet [0, 0, 1, 0, 1, 65, 99] = .error "Checksum mismatch" ∧
      receive_packet [0, 0, 1, 0, 1, 65, 99] = .ok none ∧
      handle_client_step [0, 0, 1, 0, 1, 65, 99] = .removeClient :=
  ⟨rfl, rfl, rfl⟩

/-! ### battleship.py : the Board -/

def BOARD_SIZE : Nat := 10

/-- An entry of Board.placed_ships: a dict with the ship name and the set of
its still-unhit cells (the source mutates this set as hits land). -/
structure Ship where
  name : String
  positions : Finset (Nat × Nat)

/-- Embedding of the Board class (battleship.py). The two 2D lists of
characters become functions from (row, col) to the cell character. -/
structure Board where
  size : Nat
  hidden_grid : Nat × Nat → Char
  display_grid : Nat × Nat → Char
  placed_ships : List Ship

/-- Point update of a grid, the embedding of grid[row][col] = v. -/
def setCell (g : Nat × Nat → Char) (p : Nat × Nat) (v : Char) : Nat × Nat → Char :=
  fun q => if q = p then v else g q

/-- Board.__init__: both grids all dots, no placed ships. -/
def mkBoard (size : Nat) : Board :=
  { size := size
    hidden_grid := fun _ => '.'
    display_grid := fun _ => '.'
    placed_ships := [] }

/-- Embedding of Board.can_place_ship: bounds check plus all target cells
still holding a dot on the hidden grid. -/
def can_place_ship (b : Board) (row col ship_size orientation : Nat) : Bool :=
  if orientation = 0 then
    decide (row < b.size) && decide (col < b.size) && decide (col + ship_size ≤ b.size) &&
      (List.range ship_size).all (fun c_offset =>
        decide (b.hidden_grid (row, col + c_offset) = '.'))
  else
    decide (row < b.size) && decide (col < b.size) && decide (row + ship_size ≤ b.size) &&
      (List.range ship_size).all (fun r_offset =>
        decide (b.hidden_grid (row + r_offset, col) = '.'))

/-- The footprint written by do_place_ship for a given start, length and
orientation (horizontal extends the column, vertical the row). -/
def shipSegment (row col ship_size orientation : Nat) : Finset (Nat × Nat) :=
  if orientation = 0 then (Finset.range ship_size).image (fun c_offset => (row, col + c_offset))
  else (Finset.range ship_size).image (fun r_offset => (row + r_offset, col))

/-- Embedding of Board.do_place_ship: returns the occupied set and the board
whose hidden grid has an S on every occupied cell. -/
def do_place_ship (b : Board) (row col ship_size orientation : Nat) :
    Finset (Nat × Nat) × Board :=
  if orientation = 0 then
    let occupied := (Finset.range ship_size).image (fun c_offset => (row, col + c_offset))
    let g := (List.range ship_size).foldl
      (fun g c_offset => setCell g (row, col + c_offset) 'S') b.hidden_grid
    (occupied, { b with hidden_grid := g })
  else
    let occupied := (Finset.range ship_size).image (fun r_offset => (row + r_offset, col))
    let g := (List.range ship_size).foldl
      (fun g r_offset => setCell g (row + r_offset, col) 'S') b.hidden_grid
    (occupied, { b with hidden_grid := g })

/-- Embedding of Board._mark_hit_and_check_sunk: walk the placed ships, remove
the cell from the first ship whose remaining positions contain it, return the
ship name exactly when that removal empties the set, and stop (return None)
after the first containing ship. -/
def mark_hit_and_check_sunk : List Ship → Nat × Nat → Option String × List Ship
  | [], _ => (none, [])
  | ship :: rest, p =>
    if p ∈ ship.positions then
      let positions := ship.positions.erase p
      ((if positions = ∅ then some ship.name else none),
        { ship with positions := positions } :: rest)
    else
      let res := mark_hit_and_check_sunk rest p
      (res.1, ship :: res.2)

/-- Embedding of Board.fire_at. The pair is (result message, optional sunk
ship name or error detail) exactly as in the source; the second component is
the board after the call (the source mutates in place). -/
def fire_at (b : Board) (row col : Nat) : (String × Option String) × Board :=
  let cell := b.hidden_grid (row, col)
  if cell = 'S' then
    let mh := mark_hit_and_check_sunk b.placed_ships (row, col)
    (("hit", mh.1),
      { b with
          hidden_grid := setCell b.hidden_grid (row, col) 'X'
          display_grid := setCell b.display_grid (row, col) 'X'
          placed_ships := mh.2 })
  else if cell = '.' then
    (("miss", none),
      { b with
          hidden_grid := setCell b.hidden_grid (row, col) 'o'
          display_grid := setCell b.display_grid (row, col) 'o' })
  else if cell = 'X' ∨ cell = 'o' then
    (("already_shot", none), b)
  else
    (("error", some "Unknown cell state"), b)

/-- Embedding of Board.all_ships_sunk: False with no placed ships, else every
ship with an empty remaining set. -/
def all_ships_sunk (b : Board) : Bool :=
  if b.placed_ships.isEmpty then false
  else b.placed_ships.all (fun ship => decide (ship.positions = ∅))

/-- One requested placement: the declared ship name and size together with
the chosen start cell and orientation (0 horizontal, 1 vertical), as fed to
can_place_ship and do_place_ship by both the random and the manual placement
loops. -/
structure PlacementReq where
  name : String
  size : Nat
  row : Nat
  col : Nat
  orientation : Nat

/-- One placement attempt as performed by place_ships_randomly,
place_ships_manually and place_ships_for_player: if can_place_ship accepts,
do_place_ship runs and the ship (with a copy of its occupied set) is appended
to placed_ships; otherwise the board is unchanged (the source retries with a
fresh attempt, which is a later request in the sequence). -/
def tryPlace (b : Board) (req : PlacementReq) : Board :=
  if can_place_ship b req.row req.col req.size req.orientation then
    let res := do_place_ship b req.row req.col req.size req.orientation
    { res.2 with placed_ships :=
        res.2.placed_ships ++ [{ name := req.name, positions := res.1 }] }
  else b

/-- A whole sequence of placement attempts. -/
def placeList (b : Board) (reqs : List PlacementReq) : Board := reqs.foldl tryPlace b

/-- The subsequence of placement attempts that can_place_ship accepted. -/
def acceptedReqs : Board → List PlacementReq → List PlacementReq
  | _, [] => []
  | b, req :: reqs =>
    if can_place_ship b req.row req.col req.size req.orientation then
      req :: acceptedReqs (tryPlace b req) reqs
    else acceptedReqs b reqs

/-- A sequence of fire_at calls, threading the board through. -/
def fireSeq (b : Board) (shots : List (Nat × Nat)) : Board :=
  shots.foldl (fun b p => (fire_at b p.1 p.2).2) b

/-- The set of cells on which fire_at returned hit while firing the given
sequence of shots. -/
def hitCells (b : Board) : List (Nat × Nat) → Finset (Nat × Nat)
  | [] => ∅
  | p :: rest =>
    let res := fire_at b p.1 p.2
    (if res.1.1 = "hit" then {p} else ∅) ∪ hitCells res.2 rest

/-- The remaining positions of the j-th placed ship (empty set when out of
range). -/
def shipPositionsAt (b : Board) (j : Nat) : Finset (Nat × Nat) :=
  (b.placed_ships.getD j { name := "", positions := ∅ }).positions

/-- The name of the j-th placed ship. -/
def shipNameAt (b : Board) (j : Nat) : String :=
  (b.placed_ships.getD j { name := "", positions := ∅ }).name

/-- The grid and ship bookkeeping invariant every board reachable by legal
placements and shots satisfies: placed ships are pairwise disjoint, every
remaining ship cell shows S on the hidden grid, every S on the hidden grid
belongs to some placed ship, and every cell holds one of the four characters
dot, S, X, o. -/
def GridInv (b : Board) : Prop :=
  List.Pairwise (fun s t => Disjoint s.positions t.positions) b.placed_ships ∧
  (∀ s ∈ b.placed_ships, ∀ p ∈ s.positions, b.hidden_grid p = 'S') ∧
  (∀ p, b.hidden_grid p = 'S' → ∃ s ∈ b.placed_ships, p ∈ s.positions) ∧
  (∀ p, b.hidden_grid p = '.' ∨ b.hidden_grid p = 'S' ∨
    b.hidden_grid p = 'X' ∨ b.hidden_grid p = 'o')

lemma fire_at_S {b : Board} {row col : Nat} (h : b.hidden_grid (row, col) = 'S') :
    fire_at b row col =
      (("hit", (mark_hit_and_check_sunk b.placed_ships (row, col)).1),
        { b with
            hidden_grid := setCell b.hidden_grid (row, col) 'X'
            display_grid := setCell b.display_grid (row, col) 'X'
            placed_ships := (mark_hit_and_check_sunk b.placed_ships (row, col)).2 }) := by
  simp only [fire_at, h]
  rfl

lemma fire_at_dot {b : Board} {row col : Nat} (h : b.hidden_grid (row, col) = '.') :
    fire_at b row col =
      (("miss", none),
        { b with
            hidden_grid := setCell b.hidden_grid (row, col) 'o'
            display_grid := setCell b.display_grid (row, col) 'o' }) := by
  simp only [fire_at, h]
  rfl

lemma fire_at_already {b : Board} {row col : Nat}
    (h : b.hidden_grid (row, col) = 'X' ∨ b.hidden_grid (row, col) = 'o') :
    fire_at b row col = (("already_shot", none), b) := by
  rcases h with h | h <;> simp only [fire_at, h] <;> rfl

lemma fire_at_hidden_other (b : Board) (row col : Nat) (q : Nat × Nat)
    (hq : q ≠ (row, col)) :
    (fire_at b row col).2.hidden_grid q = b.hidden_grid q := by
  by_cases hS : b.hidden_grid (row, col) = 'S'
  · rw [fire_at_S hS]; simp [setCell, hq]
  · by_cases hd : b.hidden_grid (row, col) = '.'
    · rw [fire_at_dot hd]; simp [setCell, hq]
    · by_cases hXo : b.hidden_grid (row, col) = 'X' ∨ b.hidden_grid (row, col) = 'o'
      · rw [fire_at_already hXo]
      · simp only [fire_at, if_neg hS, if_neg hd, if_neg hXo]

lemma fire_at_display_other (b : Board) (row col : Nat) (q : Nat × Nat)
    (hq : q ≠ (row, col)) :
    (fire_at b row col).2.display_grid q = b.display_grid q := by
  by_cases hS : b.hidden_grid (row, col) = 'S'
  · rw [fire_at_S hS]; simp [setCell, hq]
  · by_cases hd : b.hidden_grid (row, col) = '.'
    · rw [fire_at_dot hd]; simp [setCell, hq]
    · by_cases hXo : b.hidden_grid (row, col) = 'X' ∨ b.hidden_grid (row, col) = 'o'
      · rw [fire_at_already hXo]
      · simp only [fire_at, if_neg hS, if_neg hd, if_neg hXo]

lemma fire_at_keeps_Xo (b : Board) (row col : Nat) (p : Nat × Nat)
    (h : b.hidden_grid p = 'X' ∨ b.hidden_grid p = 'o') :
    (fire_at b row col).2.hidden_grid p = 'X' ∨
      (fire_at b row col).2.hidden_grid p = 'o' := by
  by_cases hp : p = (row, col)
  · subst hp
    rw [fire_at_already h]
    exact h
  · rw [fire_at_hidden_other b row col p hp]
    exact h

lemma fireSeq_keeps_Xo (shots : List (Nat × Nat)) :
    ∀ (b : Board) (p : Nat × Nat),
      b.hidden_grid p = 'X' ∨ b.hidden_grid p = 'o' →
      (fireSeq b shots).hidden_grid p = 'X' ∨ (fireSeq b shots).hidden_grid p = 'o' := by
  induction shots with
  | nil => intro b p h; exact h
  | cons q rest ih =>
    intro b p h
    exact ih (fire_at b q.1 q.2).2 p (fire_at_keeps_Xo b q.1 q.2 p h)

/-- C1: fire_at on a cell already showing X or o returns already_shot with no
sunk name and changes nothing at all (truth grid, public grid and every
placed ship are untouched); on a live cell (S or dot) the call mutates that
one cell exactly once, to X respectively o on both views while every other
cell is untouched (and a miss never touches the ships); and after the first
such call, any later fire_at on the same cell — with any other shots fired in
between — returns already_shot and mutates nothing further. -/
theorem fire_at_idempotent (b : Board) (row col : Nat) :
    (b.hidden_grid (row, col) = 'X' ∨ b.hidden_grid (row, col) = 'o' →
      fire_at b row col = (("already_shot", none), b)) ∧
    (b.hidden_grid (row, col) = 'S' →
      (fire_at b row col).1.1 = "hit" ∧
      (fire_at b row col).2.hidden_grid (row, col) = 'X' ∧
      (fire_at b row col).2.display_grid (row, col) = 'X' ∧
      ∀ q, q ≠ (row, col) →
        (fire_at b row col).2.hidden_grid q = b.hidden_grid q ∧
        (fire_at b row col).2.display_grid q = b.display_grid q) ∧
    (b.hidden_grid (row, col) = '.' →
      (fire_at b row col).1 = ("miss", none) ∧
      (fire_at b row col).2.hidden_grid (row, col) = 'o' ∧
      (fire_at b row col).2.display_grid (row, col) = 'o' ∧
      (fire_at b row col).2.placed_ships = b.placed_ships ∧
      ∀ q, q ≠ (row, col) →
        (fire_at b row col).2.hidden_grid q = b.hidden_grid q ∧
        (fire_at b row col).2.display_grid q = b.display_grid q) ∧
    (b.hidden_grid (row, col) = 'S' ∨ b.hidden_grid (row, col) = '.' →
      ∀ shots : List (Nat × Nat),
        fire_at (fireSeq (fire_at b row col).2 shots) row col =
          (("already_shot", none), fireSeq (fire_at b row col).2 shots)) := by
  refine ⟨fun h => fire_at_already h, fun h => ?_, fun h => ?_, fun h shots => ?_⟩
  · rw [fire_at_S h]
    refine ⟨rfl, by simp [setCell], by simp [setCell], fun q hq => ?_⟩
    constructor <;> simp [setCell, hq]
  · rw [fire_at_dot h]
    refine ⟨rfl, by simp [setCell], by simp [setCell], rfl, fun q hq => ?_⟩
    constructor <;> simp [setCell, hq]
  · have h1 : (fire_at b row col).2.hidden_grid (row, col) = 'X' ∨
        (fire_at b row col).2.hidden_grid (row, col) = 'o' := by
      rcases h with h | h
      · left; rw [fire_at_S h]; simp [setCell]
      · right; rw [fire_at_dot h]; simp [setCell]
    exact fire_at_already
      (fireSeq_keeps_Xo shots (fire_at b row col).2 (row, col) h1)

/-- A concrete board exercising every hypothesis of the idempotence theorem:
an X at (0,0), an o at (0,1), an S at (1,0) (its remaining Destroyer cells
being (1,0) and (1,1)) and dots elsewhere. -/
def demoBoard : Board :=
  { size := 10
    hidden_grid := fun q =>
      if q = (0, 0) then 'X' else if q = (0, 1) then 'o'
      else if q = (1, 0) then 'S' else if q = (1, 1) then 'S' else '.'
    display_grid := fun q =>
      if q = (0, 0) then 'X' else if q = (0, 1) then 'o' else '.'
    placed_ships := [{ name := "Destroyer", positions := {(1, 0), (1, 1)} }] }

/-- Witness for C1 at the concrete board: an already-X cell, a live S cell
and a live dot cell, with a later repeat shot on the S cell. -/
theorem fire_at_idempotent_witness :
    (fire_at demoBoard 0 0 = (("already_shot", none), demoBoard)) ∧
    (fire_at demoBoard 1 0).1.1 = "hit" ∧
    (fire_at demoBoard 1 0).2.hidden_grid (1, 0) = 'X' ∧
    (fire_at demoBoard 2 2).1 = ("miss", none) ∧
    (fire_at (fireSeq (fire_at demoBoard 1 0).2 [(5, 5)]) 1 0 =
      (("already_shot", none), fireSeq (fire_at demoBoard 1 0).2 [(5, 5)])) :=
  ⟨(fire_at_idempotent demoBoard 0 0).1 (Or.inl rfl),
    ((fire_at_idempotent demoBoard 1 0).2.1 rfl).1,
    ((fire_at_idempotent demoBoard 1 0).2.1 rfl).2.1,
    ((fire_at_idempotent demoBoard 2 2).2.2.1 rfl).1,
    (fire_at_idempotent demoBoard 1 0).2.2.2 (Or.inl rfl) [(5, 5)]⟩

/-! ### placement: C9 -/

lemma foldl_setCell_eval (l : List Nat) (f : Nat → Nat × Nat) (g : Nat × Nat → Char)
    (v : Char) (q : Nat × Nat) :
    (l.foldl (fun g k => setCell g (f k) v) g) q =
      if ∃ k ∈ l, f k = q then v else g q := by
  induction l generalizing g with
  | nil => simp
  | cons a t ih =>
    simp only [List.foldl_cons]
    rw [ih]
    by_cases hq : ∃ k ∈ t, f k = q
    · rw [if_pos hq, if_pos ⟨hq.choose, List.mem_cons_of_mem a hq.choose_spec.1,
        hq.choose_spec.2⟩]
    · rw [if_neg hq]
      by_cases ha : f a = q
      · rw [if_pos ⟨a, List.mem_cons_self a t, ha⟩]
        simp [setCell, ha.symm]
      · rw [if_neg ?_]
        · simp only [setCell]
          rw [if_neg (fun hc => ha hc.symm)]
        · rintro ⟨k, hk, hfk⟩
          rcases List.mem_cons.mp hk with rfl | hk
          · exact ha hfk
          · exact hq ⟨k, hk, hfk⟩

lemma do_place_occupied (b : Board) (row col ship_size orientation : Nat) :
    (do_place_ship b row col ship_size orientation).1 =
      shipSegment row col ship_size orientation := by
  by_cases h : orientation = 0 <;> simp [do_place_ship, shipSegment, h]

lemma do_place_ships (b : Board) (row col ship_size orientation : Nat) :
    (do_place_ship b row col ship_size orientation).2.placed_ships = b.placed_ships := by
  by_cases h : orientation = 0 <;> simp [do_place_ship, h]

lemma do_place_size (b : Board) (row col ship_size orientation : Nat) :
    (do_place_ship b row col ship_size orientation).2.size = b.size := by
  by_cases h : orientation = 0 <;> simp [do_place_ship, h]

lemma do_place_display (b : Board) (row col ship_size orientation : Nat) :
    (do_place_ship b row col ship_size orientation).2.display_grid = b.display_grid := by
  by_cases h : orientation = 0 <;> simp [do_place_ship, h]

lemma do_place_hidden (b : Board) (row col ship_size orientation : Nat) (q : Nat × Nat) :
    (do_place_ship b row col ship_size orientation).2.hidden_grid q =
      if q ∈ shipSegment row col ship_size orientation then 'S' else b.hidden_grid q := by
  have key : ∀ f : Nat → Nat × Nat,
      ((List.range ship_size).foldl (fun g k => setCell g (f k) 'S') b.hidden_grid) q =
        if q ∈ (Finset.range ship_size).image f then 'S' else b.hidden_grid q := by
    intro f
    rw [foldl_setCell_eval]
    have hiff : (∃ k ∈ List.range ship_size, f k = q) ↔
        q ∈ (Finset.range ship_size).image f := by
      simp [Finset.mem_image]
    by_cases hq : q ∈ (Finset.range ship_size).image f
    · rw [if_pos (hiff.mpr hq), if_pos hq]
    · rw [if_neg (fun hc => hq (hiff.mp hc)), if_neg hq]
  by_cases h : orientation = 0 <;>
    simp only [do_place_ship, shipSegment, h, ite_true, ite_false, if_true, if_false] <;>
    exact key _

lemma shipSegment_card (row col ship_size orientation : Nat) :
    (shipSegment row col ship_size orientation).card = ship_size := by
  by_cases h : orientation = 0 <;>
    simp only [shipSegment, h, ite_true, ite_false, if_true, if_false] <;>
    rw [Finset.card_image_of_injective _ ?_, Finset.card_range]
  · intro a b hab
    simp only [Prod.mk.injEq] at hab
    omega
  · intro a b hab
    simp only [Prod.mk.injEq] at hab
    omega

lemma can_place_cells {b : Board} {row col ship_size orientation : Nat}
    (h : can_place_ship b row col ship_size orientation = true) :
    ∀ p ∈ shipSegment row col ship_size orientation,
      b.hidden_grid p = '.' ∧ p.1 < b.size ∧ p.2 < b.size := by
  by_cases h0 : orientation = 0
  · simp only [can_place_ship, h0, ite_true, if_true, Bool.and_eq_true,
      decide_eq_true_eq, List.all_eq_true] at h
    obtain ⟨⟨⟨hr, hc⟩, hcs⟩, hall⟩ := h
    intro p hp
    simp only [shipSegment, h0, ite_true, if_true, Finset.mem_image,
      Finset.mem_range] at hp
    obtain ⟨k, hk, rfl⟩ := hp
    refine ⟨?_, by simpa using hr, by simp; omega⟩
    have := hall k (List.mem_range.mpr hk)
    simpa using this
  · simp only [can_place_ship, h0, ite_false, if_false, Bool.and_eq_true,
      decide_eq_true_eq, List.all_eq_true] at h
    obtain ⟨⟨⟨hr, hc⟩, hcs⟩, hall⟩ := h
    intro p hp
    simp only [shipSegment, h0, ite_false, if_false, Finset.mem_image,
      Finset.mem_range] at hp
    obtain ⟨k, hk, rfl⟩ := hp
    refine ⟨?_, by simp; omega, by simpa using hc⟩
    have := hall k (List.mem_range.mpr hk)
    simpa using this

lemma tryPlace_reject {b : Board} {req : PlacementReq}
    (h : ¬ can_place_ship b req.row req.col req.size req.orientation = true) :
    tryPlace b req = b := by
  simp [tryPlace, h]

lemma tryPlace_accept_ships {b : Board} {req : PlacementReq}
    (h : can_place_ship b req.row req.col req.size req.orientation = true) :
    (tryPlace b req).placed_ships = b.placed_ships ++
      [{ name := req.name,
         positions := shipSegment req.row req.col req.size req.orientation }] := by
  simp [tryPlace, h, do_place_ships, do_place_occupied]

lemma tryPlace_accept_hidden {b : Board} {req : PlacementReq}
    (h : can_place_ship b req.row req.col req.size req.orientation = true)
    (q : Nat × Nat) :
    (tryPlace b req).hidden_grid q =
      if q ∈ shipSegment req.row req.col req.size req.orientation then 'S'
      else b.hidden_grid q := by
  simp [tryPlace, h, do_place_hidden]

lemma tryPlace_size (b : Board) (req : PlacementReq) :
    (tryPlace b req).size = b.size := by
  by_cases h : can_place_ship b req.row req.col req.size req.orientation = true
  · simp [tryPlace, h, do_place_size]
  · simp [tryPlace, h]

lemma tryPlace_inv {b : Board} (req : PlacementReq) (hinv : GridInv b) :
    GridInv (tryPlace b req) := by
  by_cases h : can_place_ship b req.row req.col req.size req.orientation = true
  · obtain ⟨hdisj, hmarked, honly, hcells⟩ := hinv
    have hdot := can_place_cells h
    refine ⟨?_, ?_, ?_, ?_⟩
    · rw [tryPlace_accept_ships h]
      rw [List.pairwise_append]
      refine ⟨hdisj, by simp, ?_⟩
      intro s hs t ht
      simp only [List.mem_singleton] at ht
      subst ht
      rw [Finset.disjoint_right]
      intro p hp hps
      have h1 := hmarked s hs p hps
      have h2 := (hdot p hp).1
      rw [h1] at h2
      exact absurd h2 (by decide)
    · rw [tryPlace_accept_ships h]
      intro s hs p hp
      rw [tryPlace_accept_hidden h]
      rcases List.mem_append.mp hs with hs | hs
      · by_cases hseg : p ∈ shipSegment req.row req.col req.size req.orientation
        · rw [if_pos hseg]
        · rw [if_neg hseg]
          exact hmarked s hs p hp
      · simp only [List.mem_singleton] at hs
        subst hs
        rw [if_pos hp]
    · intro p hp
      rw [tryPlace_accept_hidden h] at hp
      rw [tryPlace_accept_ships h]
      by_cases hseg : p ∈ shipSegment req.row req.col req.size req.orientation
      · exact ⟨_, List.mem_append_right _ (List.mem_singleton_self _), hseg⟩
      · rw [if_neg hseg] at hp
        obtain ⟨s, hs, hps⟩ := honly p hp
        exact ⟨s, List.mem_append_left _ hs, hps⟩
    · intro p
      rw [tryPlace_accept_hidden h]
      by_cases hseg : p ∈ shipSegment req.row req.col req.size req.orientation
      · rw [if_pos hseg]; right; left; rfl
      · rw [if_neg hseg]; exact hcells p
  · rw [tryPlace_reject h]
    exact hinv

lemma placeList_spec (reqs : List PlacementReq) :
    ∀ b : Board, GridInv b →
      GridInv (placeList b reqs) ∧
      (placeList b reqs).size = b.size ∧
      (placeList b reqs).placed_ships = b.placed_ships ++
        (acceptedReqs b reqs).map (fun r =>
          { name := r.name,
            positions := shipSegment r.row r.col r.size r.orientation }) ∧
      (∀ r ∈ acceptedReqs b reqs,
        ∀ p ∈ shipSegment r.row r.col r.size r.orientation,
          p.1 < b.size ∧ p.2 < b.size) := by
  induction reqs with
  | nil => intro b hinv; simp [placeList, acceptedReqs, hinv]
  | cons req reqs ih =>
    intro b hinv
    by_cases h : can_place_ship b req.row req.col req.size req.orientation = true
    · have hstep : placeList b (req :: reqs) = placeList (tryPlace b req) reqs := rfl
      have hacc : acceptedReqs b (req :: reqs) =
          req :: acceptedReqs (tryPlace b req) reqs := by
        simp [acceptedReqs, h]
      obtain ⟨ih1, ih2, ih3, ih4⟩ := ih (tryPlace b req) (tryPlace_inv req hinv)
      refine ⟨hstep ▸ ih1, ?_, ?_, ?_⟩
      · rw [hstep, ih2, tryPlace_size]
      · rw [hstep, ih3, hacc, tryPlace_accept_ships h]
        simp
      · rw [hacc]
        intro r hr
        rcases List.mem_cons.mp hr with rfl | hr
        · intro p hp
          exact (can_place_cells h p hp).2
        · intro p hp
          have := ih4 r hr p hp
          rwa [tryPlace_size] at this
    · have hstep : placeList b (req :: reqs) = placeList b reqs := by
        simp only [placeList, List.foldl_cons, tryPlace_reject h]
      have hacc : acceptedReqs b (req :: reqs) = acceptedReqs b reqs := by
        simp [acceptedReqs, h]
      rw [hstep, hacc]
      exact ih b hinv

lemma mkBoard_inv (size : Nat) : GridInv (mkBoard size) := by
  refine ⟨by simp [mkBoard], by simp [mkBoard], ?_, ?_⟩
  · intro p hp
    simp only [mkBoard] at hp
    exact absurd hp (by decide)
  · intro p
    left
    rfl

/-- C9: after any sequence of placement attempts on a fresh board, the placed
ships are exactly the accepted requests in order, each occupying the full
contiguous axis-aligned segment of its declared size; the ships are pairwise
disjoint; every footprint has exactly its declared size many cells and lies
entirely inside the board. -/
theorem placement_invariant (reqs : List PlacementReq) :
    (placeList (mkBoard BOARD_SIZE) reqs).placed_ships =
      (acceptedReqs (mkBoard BOARD_SIZE) reqs).map (fun r =>
        { name := r.name,
          positions := shipSegment r.row r.col r.size r.orientation }) ∧
    List.Pairwise (fun s t => Disjoint s.positions t.positions)
      (placeList (mkBoard BOARD_SIZE) reqs).placed_ships ∧
    (∀ r ∈ acceptedReqs (mkBoard BOARD_SIZE) reqs,
      (shipSegment r.row r.col r.size r.orientation).card = r.size ∧
      ∀ p ∈ shipSegment r.row r.col r.size r.orientation,
        p.1 < BOARD_SIZE ∧ p.2 < BOARD_SIZE) := by
  obtain ⟨hinv, hsize, hships, hbounds⟩ :=
    placeList_spec reqs (mkBoard BOARD_SIZE) (mkBoard_inv BOARD_SIZE)
  refine ⟨by simpa [mkBoard] using hships, hinv.1, ?_⟩
  intro r hr
  exact ⟨shipSegment_card r.row r.col r.size r.orientation, hbounds r hr⟩

/-! ### firing: C2 -/

lemma map_erase_of_not_mem {ships : List Ship} {p : Nat × Nat}
    (h : ∀ s ∈ ships, p ∉ s.positions) :
    ships.map (fun s => { name := s.name, positions := s.positions.erase p }) = ships := by
  conv_rhs => rw [← List.map_id ships]
  apply List.map_congr_left
  intro s hs
  cases s with
  | mk n ps =>
    simp [Finset.erase_eq_of_not_mem (h _ hs)]

lemma pairwise_head_disjoint {ship : Ship} {rest : List Ship} {p : Nat × Nat}
    (hdisj : List.Pairwise (fun s t => Disjoint s.positions t.positions) (ship :: rest))
    (hp : p ∈ ship.positions) :
    ∀ s ∈ rest, p ∉ s.positions := by
  intro s hs hps
  exact (Finset.disjoint_left.mp ((List.pairwise_cons.mp hdisj).1 s hs) hp) hps

lemma mark_hit_snd (ships : List Ship) (p : Nat × Nat)
    (hdisj : List.Pairwise (fun s t => Disjoint s.positions t.positions) ships) :
    (mark_hit_and_check_sunk ships p).2 =
      ships.map (fun s => { name := s.name, positions := s.positions.erase p }) := by
  induction ships with
  | nil => rfl
  | cons ship rest ih =>
    by_cases hp : p ∈ ship.positions
    · simp only [mark_hit_and_check_sunk, if_pos hp, List.map_cons]
      congr 1
      rw [map_erase_of_not_mem (pairwise_head_disjoint hdisj hp)]
    · simp only [mark_hit_and_check_sunk, if_neg hp, List.map_cons]
      rw [ih hdisj.of_cons]
      congr 1
      cases ship with
      | mk n ps => simp [Finset.erase_eq_of_not_mem hp]

lemma erase_eq_empty_of_singleton {s : Finset (Nat × Nat)} {p : Nat × Nat}
    (hp : p ∈ s) : s.erase p = ∅ ↔ s = {p} := by
  constructor
  · intro h
    ext x
    simp only [Finset.mem_singleton]
    constructor
    · intro hx
      by_contra hne
      have : x ∈ s.erase p := Finset.mem_erase.mpr ⟨hne, hx⟩
      rw [h] at this
      exact absurd this (Finset.not_mem_empty x)
    · intro hx; rw [hx]; exact hp
  · intro h
    rw [h]
    exact Finset.erase_singleton p

lemma mark_hit_fst (ships : List Ship) (p : Nat × Nat)
    (hdisj : List.Pairwise (fun s t => Disjoint s.positions t.positions) ships)
    (nm : String) :
    (mark_hit_and_check_sunk ships p).1 = some nm ↔
      ∃ s ∈ ships, s.positions = {p} ∧ s.name = nm := by
  induction ships with
  | nil => simp [mark_hit_and_check_sunk]
  | cons ship rest ih =>
    by_cases hp : p ∈ ship.positions
    · simp only [mark_hit_and_check_sunk, if_pos hp]
      by_cases he : ship.positions.erase p = ∅
      · rw [if_pos he]
        have hsingle : ship.positions = {p} := (erase_eq_empty_of_singleton hp).mp he
        constructor
        · intro hsome
          exact ⟨ship, List.mem_cons_self ship rest, hsingle, Option.some_injective _ hsome⟩
        · rintro ⟨s, hs, hspos, hsname⟩
          rcases List.mem_cons.mp hs with rfl | hs
          · rw [hsname]
          · exact absurd (hspos ▸ Finset.mem_singleton_self p)
              (pairwise_head_disjoint hdisj hp s hs)
      · rw [if_neg he]
        constructor
        · intro hcon; exact absurd hcon (by simp)
        · rintro ⟨s, hs, hspos, hsname⟩
          rcases List.mem_cons.mp hs with rfl | hs
          · exact absurd ((erase_eq_empty_of_singleton hp).mpr hspos) he
          · exact absurd (hspos ▸ Finset.mem_singleton_self p)
              (pairwise_head_disjoint hdisj hp s hs)
    · simp only [mark_hit_and_check_sunk, if_neg hp]
      rw [ih hdisj.of_cons]
      constructor
      · rintro ⟨s, hs, h1, h2⟩
        exact ⟨s, List.mem_cons_of_mem ship hs, h1, h2⟩
      · rintro ⟨s, hs, h1, h2⟩
        rcases List.mem_cons.mp hs with rfl | hs
        · exact absurd (h1 ▸ Finset.mem_singleton_self p) hp
        · exact ⟨s, hs, h1, h2⟩

lemma fire_at_ships {b : Board} (hinv : GridInv b) (row col : Nat) :
    (fire_at b row col).2.placed_ships =
      b.placed_ships.map (fun s =>
        { name := s.name, positions := s.positions.erase (row, col) }) := by
  obtain ⟨hdisj, hmarked, honly, hcells⟩ := hinv
  by_cases hS : b.hidden_grid (row, col) = 'S'
  · rw [fire_at_S hS]
    exact mark_hit_snd _ _ hdisj
  · have hnot : ∀ s ∈ b.placed_ships, (row, col) ∉ s.positions := by
      intro s hs hmem
      exact hS (hmarked s hs _ hmem)
    rw [map_erase_of_not_mem hnot]
    by_cases hd : b.hidden_grid (row, col) = '.'
    · rw [fire_at_dot hd]
    · rcases hcells (row, col) with hc | hc | hc | hc
      · exact absurd hc hd
      · exact absurd hc hS
      · rw [fire_at_already (Or.inl hc)]
      · rw [fire_at_already (Or.inr hc)]

lemma fire_at_hit_iff (b : Board) (row col : Nat) :
    (fire_at b row col).1.1 = "hit" ↔ b.hidden_grid (row, col) = 'S' := by
  by_cases hS : b.hidden_grid (row, col) = 'S'
  · rw [fire_at_S hS]
    simp [hS]
  · simp only [hS, iff_false]
    by_cases hd : b.hidden_grid (row, col) = '.'
    · rw [fire_at_dot hd]; simp
    · by_cases hXo : b.hidden_grid (row, col) = 'X' ∨ b.hidden_grid (row, col) = 'o'
      · rw [fire_at_already hXo]; simp
      · simp only [fire_at, if_neg hS, if_neg hd, if_neg hXo]; simp

lemma fire_at_sunk {b : Board} (hinv : GridInv b) (row col : Nat) (nm : String) :
    (fire_at b row col).1.2 = some nm ↔
      ∃ s ∈ b.placed_ships, s.positions = {(row, col)} ∧ s.name = nm := by
  obtain ⟨hdisj, hmarked, honly, hcells⟩ := hinv
  by_cases hS : b.hidden_grid (row, col) = 'S'
  · rw [fire_at_S hS]
    exact mark_hit_fst _ _ hdisj nm
  · have hrhs : ¬ ∃ s ∈ b.placed_ships, s.positions = {(row, col)} ∧ s.name = nm := by
      rintro ⟨s, hs, hpos, _⟩
      exact hS (hmarked s hs _ (hpos ▸ Finset.mem_singleton_self _))
    refine iff_of_false ?_ hrhs
    by_cases hd : b.hidden_grid (row, col) = '.'
    · rw [fire_at_dot hd]; simp
    · rcases hcells (row, col) with hc | hc | hc | hc
      · exact absurd hc hd
      · exact absurd hc hS
      · rw [fire_at_already (Or.inl hc)]; simp
      · rw [fire_at_already (Or.inr hc)]; simp

lemma fire_at_hidden_self_ne_S (b : Board) (row col : Nat)
    (hcells : ∀ p, b.hidden_grid p = '.' ∨ b.hidden_grid p = 'S' ∨
      b.hidden_grid p = 'X' ∨ b.hidden_grid p = 'o') :
    (fire_at b row col).2.hidden_grid (row, col) ≠ 'S' := by
  by_cases hS : b.hidden_grid (row, col) = 'S'
  · rw [fire_at_S hS]; simp [setCell]
  · by_cases hd : b.hidden_grid (row, col) = '.'
    · rw [fire_at_dot hd]; simp [setCell]
    · rcases hcells (row, col) with hc | hc | hc | hc
      · exact absurd hc hd
      · exact absurd hc hS
      · rw [fire_at_already (Or.inl hc)]; rw [hc]; decide
      · rw [fire_at_already (Or.inr hc)]; rw [hc]; decide

lemma fire_at_inv {b : Board} (hinv : GridInv b) (row col : Nat) :
    GridInv (fire_at b row col).2 := by
  have hships := fire_at_ships hinv row col
  obtain ⟨hdisj, hmarked, honly, hcells⟩ := hinv
  refine ⟨?_, ?_, ?_, ?_⟩
  · rw [hships, List.pairwise_map]
    refine hdisj.imp ?_
    intro s t hst
    exact Finset.disjoint_of_subset_left (Finset.erase_subset _ _)
      (Finset.disjoint_of_subset_right (Finset.erase_subset _ _) hst)
  · rw [hships]
    intro s' hs' p hp
    obtain ⟨s, hs, rfl⟩ := List.mem_map.mp hs'
    simp only at hp
    have hpne : p ≠ (row, col) := (Finset.mem_erase.mp hp).1
    rw [fire_at_hidden_other b row col p hpne]
    exact hmarked s hs p (Finset.mem_of_mem_erase hp)
  · intro p hp
    by_cases hpc : p = (row, col)
    · subst hpc
      exact absurd hp (fire_at_hidden_self_ne_S b row col hcells)
    · rw [fire_at_hidden_other b row col p hpc] at hp
      obtain ⟨s, hs, hps⟩ := honly p hp
      rw [hships]
      exact ⟨_, List.mem_map_of_mem _ hs,
        Finset.mem_erase.mpr ⟨hpc, hps⟩⟩
  · intro p
    by_cases hpc : p = (row, col)
    · subst hpc
      by_cases hS : b.hidden_grid (row, col) = 'S'
      · rw [fire_at_S hS]; simp [setCell]
      · by_cases hd : b.hidden_grid (row, col) = '.'
        · rw [fire_at_dot hd]; simp [setCell]
        · rcases hcells (row, col) with hc | hc | hc | hc
          · exact absurd hc hd
          · exact absurd hc hS
          · rw [fire_at_already (Or.inl hc)]; exact hcells (row, col)
          · rw [fire_at_already (Or.inr hc)]; exact hcells (row, col)
    · rw [fire_at_hidden_other b row col p hpc]
      exact hcells p

lemma fireSeq_inv (shots : List (Nat × Nat)) :
    ∀ b : Board, GridInv b → GridInv (fireSeq b shots) := by
  induction shots with
  | nil => intro b h; exact h
  | cons q rest ih =>
    intro b h
    exact ih _ (fire_at_inv h q.1 q.2)

lemma fireSeq_ships (shots : List (Nat × Nat)) :
    ∀ b : Board, GridInv b →
      (fireSeq b shots).placed_ships = b.placed_ships.map (fun s =>
        { name := s.name, positions := s.positions \ shots.toFinset }) := by
  induction shots with
  | nil =>
    intro b _
    simp only [fireSeq, List.foldl_nil, List.toFinset_nil, Finset.sdiff_empty]
    conv_lhs => rw [← List.map_id b.placed_ships]
    apply List.map_congr_left
    intro s _
    cases s with
    | mk n ps => rfl
  | cons q rest ih =>
    intro b hinv
    have hstep : fireSeq b (q :: rest) = fireSeq (fire_at b q.1 q.2).2 rest := rfl
    rw [hstep, ih _ (fire_at_inv hinv q.1 q.2), fire_at_ships hinv, List.map_map]
    apply List.map_congr_left
    intro s _
    simp only [Function.comp]
    congr 1
    ext x
    simp only [Finset.mem_sdiff, Finset.mem_erase, List.mem_toFinset, List.mem_cons,
      not_or, Prod.mk.eta]
    tauto

lemma mem_hitCells_iff (shots : List (Nat × Nat)) :
    ∀ b : Board, GridInv b → ∀ p : Nat × Nat,
      (∃ s ∈ b.placed_ships, p ∈ s.positions) →
      (p ∈ hitCells b shots ↔ p ∈ shots) := by
  induction shots with
  | nil => intro b _ p _; simp [hitCells]
  | cons q rest ih =>
    intro b hinv p hp
    simp only [hitCells, Finset.mem_union, List.mem_cons]
    by_cases hpq : p = q
    · subst hpq
      obtain ⟨s, hs, hps⟩ := hp
      have hS : b.hidden_grid p = 'S' := hinv.2.1 s hs p hps
      have hhit : (fire_at b p.1 p.2).1.1 = "hit" := (fire_at_hit_iff b p.1 p.2).mpr hS
      rw [if_pos hhit]
      simp
    · have h2 : p ∈ hitCells (fire_at b q.1 q.2).2 rest ↔ p ∈ rest := by
        apply ih _ (fire_at_inv hinv q.1 q.2)
        obtain ⟨s, hs, hps⟩ := hp
        refine ⟨{ name := s.name, positions := s.positions.erase (q.1, q.2) }, ?_, ?_⟩
        · rw [fire_at_ships hinv]
          exact List.mem_map_of_mem _ hs
        · exact Finset.mem_erase.mpr ⟨by simpa using hpq, hps⟩
      have h1 : p ∉ (if (fire_at b q.1 q.2).1.1 = "hit" then ({q} : Finset (Nat × Nat))
          else ∅) := by
        by_cases hq : (fire_at b q.1 q.2).1.1 = "hit"
        · rw [if_pos hq]
          simpa using hpq
        · rw [if_neg hq]
          simp
      constructor
      · rintro (hc | hc)
        · exact absurd hc h1
        · exact Or.inr (h2.mp hc)
      · rintro (hc | hc)
        · exact absurd hc hpq
        · exact Or.inr (h2.mpr hc)

lemma shipPositionsAt_eq (b : Board) (j : Nat) (h : j < b.placed_ships.length) :
    shipPositionsAt b j = (b.placed_ships[j]).positions := by
  unfold shipPositionsAt
  rw [List.getD_eq_getElem?_getD, List.getElem?_eq_getElem h]
  rfl

/-- C2: on a board built by any legal placements, along any sequence of shots:
(1) at every step, fire_at returns a non-None sunk name exactly when the
fired cell is the last remaining cell of one of the placed ships — the name
returned being that very ship's name; and (2) for every placed ship, the set
of cells on which fire_at returned hit inside its footprint equals its
original footprint if and only if the ship ends the sequence sunk (no
remaining cells). -/
theorem sunk_exactly_on_last_cell (reqs : List PlacementReq) (shots : List (Nat × Nat)) :
    (∀ i, i < shots.length → ∀ nm : String,
      (fire_at (fireSeq (placeList (mkBoard BOARD_SIZE) reqs) (shots.take i))
          (shots.getD i (0, 0)).1 (shots.getD i (0, 0)).2).1.2 = some nm ↔
        ∃ s ∈ (fireSeq (placeList (mkBoard BOARD_SIZE) reqs) (shots.take i)).placed_ships,
          s.positions = {shots.getD i (0, 0)} ∧ s.name = nm) ∧
    (∀ j, j < (placeList (mkBoard BOARD_SIZE) reqs).placed_ships.length →
      (hitCells (placeList (mkBoard BOARD_SIZE) reqs) shots ∩
          shipPositionsAt (placeList (mkBoard BOARD_SIZE) reqs) j =
        shipPositionsAt (placeList (mkBoard BOARD_SIZE) reqs) j ↔
        shipPositionsAt (fireSeq (placeList (mkBoard BOARD_SIZE) reqs) shots) j = ∅)) := by
  have hinv0 : GridInv (placeList (mkBoard BOARD_SIZE) reqs) :=
    (placeList_spec reqs (mkBoard BOARD_SIZE) (mkBoard_inv BOARD_SIZE)).1
  constructor
  · intro i _ nm
    exact fire_at_sunk (fireSeq_inv (shots.take i) _ hinv0) _ _ nm
  · intro j hj
    have hlen : (fireSeq (placeList (mkBoard BOARD_SIZE) reqs) shots).placed_ships.length =
        (placeList (mkBoard BOARD_SIZE) reqs).placed_ships.length := by
      rw [fireSeq_ships shots _ hinv0, List.length_map]
    have hfinal : shipPositionsAt (fireSeq (placeList (mkBoard BOARD_SIZE) reqs) shots) j =
        shipPositionsAt (placeList (mkBoard BOARD_SIZE) reqs) j \ shots.toFinset := by
      rw [shipPositionsAt_eq _ j (by omega), shipPositionsAt_eq _ j hj]
      have := fireSeq_ships shots _ hinv0
      rw [List.getElem_of_eq this, List.getElem_map]
    have hhits : hitCells (placeList (mkBoard BOARD_SIZE) reqs) shots ∩
        shipPositionsAt (placeList (mkBoard BOARD_SIZE) reqs) j =
        shipPositionsAt (placeList (mkBoard BOARD_SIZE) reqs) j ∩ shots.toFinset := by
      ext x
      simp only [Finset.mem_inter]
      constructor
      · rintro ⟨hx1, hx2⟩
        refine ⟨hx2, List.mem_toFinset.mpr ?_⟩
        exact (mem_hitCells_iff shots _ hinv0 x
          ⟨_, List.getElem_mem _, by rwa [shipPositionsAt_eq _ j hj] at hx2⟩).mp hx1
      · rintro ⟨hx1, hx2⟩
        refine ⟨?_, hx1⟩
        exact (mem_hitCells_iff shots _ hinv0 x
          ⟨_, List.getElem_mem _, by rwa [shipPositionsAt_eq _ j hj] at hx1⟩).mpr
          (List.mem_toFinset.mp hx2)
    rw [hfinal, hhits, Finset.inter_eq_left, Finset.sdiff_eq_empty_iff_subset]

/-- A single accepted placement: a Destroyer of size 2 at A1 horizontal. -/
def demoReqs : List PlacementReq :=
  [{ name := "Destroyer", size := 2, row := 0, col := 0, orientation := 0 }]

/-- Two shots sinking the demo Destroyer. -/
def demoShots : List (Nat × Nat) := [(0, 0), (0, 1)]

/-- Witness for C2 on the demo fleet: the second shot is checked by part one
and the Destroyer by part two. -/
theorem sunk_exactly_on_last_cell_witness :
    (1 : Nat) < demoShots.length ∧
    (0 : Nat) < (placeList (mkBoard BOARD_SIZE) demoReqs).placed_ships.length ∧
    (∀ nm : String,
      (fire_at (fireSeq (placeList (mkBoard BOARD_SIZE) demoReqs) (demoShots.take 1))
          (demoShots.getD 1 (0, 0)).1 (demoShots.getD 1 (0, 0)).2).1.2 = some nm ↔
        ∃ s ∈ (fireSeq (placeList (mkBoard BOARD_SIZE) demoReqs)
            (demoShots.take 1)).placed_ships,
          s.positions = {demoShots.getD 1 (0, 0)} ∧ s.name = nm) ∧
    (hitCells (placeList (mkBoard BOARD_SIZE) demoReqs) demoShots ∩
        shipPositionsAt (placeList (mkBoard BOARD_SIZE) demoReqs) 0 =
      shipPositionsAt (placeList (mkBoard BOARD_SIZE) demoReqs) 0 ↔
      shipPositionsAt (fireSeq (placeList (mkBoard BOARD_SIZE) demoReqs) demoShots) 0 = ∅) := by
  have h1 : (1 : Nat) < demoShots.length := by decide
  have h2 : (0 : Nat) < (placeList (mkBoard BOARD_SIZE) demoReqs).placed_ships.length := by
    decide
  exact ⟨h1, h2, (sunk_exactly_on_last_cell demoReqs demoShots).1 1 h1,
    (sunk_exactly_on_last_cell demoReqs demoShots).2 0 h2⟩

/-- Witness for C9 on the demo fleet: the Destroyer request is accepted and
its footprint has its declared 2 cells, inside the board. -/
theorem placement_invariant_witness :
    ({ name := "Destroyer", size := 2, row := 0, col := 0, orientation := 0 } :
        PlacementReq) ∈ acceptedReqs (mkBoard BOARD_SIZE) demoReqs ∧
    (shipSegment 0 0 2 0).card = 2 ∧
    (∀ p ∈ shipSegment 0 0 2 0, p.1 < BOARD_SIZE ∧ p.2 < BOARD_SIZE) := by
  have hacc : acceptedReqs (mkBoard BOARD_SIZE) demoReqs = demoReqs := rfl
  have hmem : ({ name := "Destroyer", size := 2, row := 0, col := 0, orientation := 0 } :
      PlacementReq) ∈ acceptedReqs (mkBoard BOARD_SIZE) demoReqs := by
    rw [hacc]
    exact List.mem_cons_self _ _
  have h := (placement_invariant demoReqs).2.2 _ hmem
  exact ⟨hmem, h.1, h.2⟩

/-! ### parse_coordinate (battleship.py) -/

/-- The whitespace characters removed by the default str.strip(). -/
def isPySpace (c : Char) : Bool :=
  c = ' ' || c = '\t' || c = '\n' || c = '\r' || c = '\x0b' || c = '\x0c'

/-- str.strip(): drop leading and trailing whitespace. -/
def pyStrip (l : List Char) : List Char :=
  ((l.dropWhile isPySpace).reverse.dropWhile isPySpace).reverse

/-- str.isdigit on the ASCII decimal digits handled here. -/
def isPyDigit (c : Char) : Bool :=
  decide (('0').toNat ≤ c.toNat ∧ c.toNat ≤ ('9').toNat)

/-- int() applied to a string of decimal digits. -/
def digitsToNat (l : List Char) : Nat :=
  l.foldl (fun n c => 10 * n + (c.toNat - ('0').toNat)) 0

/-- Embedding of parse_coordinate (battleship.py) on the character list of
the input string. Characters compare by code point exactly as Python compares
one-character strings; the row and the column are computed over the integers
because Python subtraction can go below zero (int(col_digits) - 1 is -1 for
column string 0, which the final range check rejects). Error strings carry
the messages of the raised ValueError. -/
def parse_coordinate (input : List Char) : Except String (Nat × Nat) :=
  let coord_str := (pyStrip input).map Char.toUpper
  if ¬ (2 ≤ coord_str.length ∧ coord_str.length ≤ 3) then
    .error ("Invalid coordinate format \x27" ++ String.mk coord_str ++
      "\x27. Expected e.g., A1 or J10.")
  else
    let row_letter := coord_str.headD ' '
    let col_digits := coord_str.tail
    if ¬ (('A').toNat ≤ row_letter.toNat ∧ row_letter.toNat < ('A').toNat + BOARD_SIZE) then
      .error ("Invalid row letter \x27" ++ String.singleton row_letter ++
        "\x27. Must be A-" ++ String.singleton (Char.ofNat (('A').toNat + BOARD_SIZE - 1)) ++ ".")
    else if ¬ (col_digits.all isPyDigit = true) then
      .error ("Column part \x27" ++ String.mk col_digits ++ "\x27 must be a number.")
    else
      let col : Int := (digitsToNat col_digits : Int) - 1
      let row : Int := (row_letter.toNat : Int) - (('A').toNat : Int)
      if ¬ (0 ≤ row ∧ row < (BOARD_SIZE : Int) ∧ 0 ≤ col ∧ col < (BOARD_SIZE : Int)) then
        .error ("Coordinate " ++ String.singleton row_letter ++
          toString (digitsToNat col_digits) ++ " is out of board range (A1-" ++
          String.singleton (Char.ofNat (('A').toNat + BOARD_SIZE - 1)) ++
          toString BOARD_SIZE ++ ").")
      else .ok (row.toNat, col.toNat)

/-- The success set named by the claim, read off its own words: length 2 to
3, an uppercase row letter in A..J, then a numeric column of value 1..10. -/
def claimedCoordForm (input : List Char) : Prop :=
  2 ≤ input.length ∧ input.length ≤ 3 ∧
  ('A').toNat ≤ (input.headD ' ').toNat ∧ (input.headD ' ').toNat ≤ ('J').toNat ∧
  input.tail.all isPyDigit = true ∧
  1 ≤ digitsToNat input.tail ∧ digitsToNat input.tail ≤ 10

instance (input : List Char) : Decidable (claimedCoordForm input) := by
  unfold claimedCoordForm
  infer_instance

/-- C8 counterexample: the lowercase input a1 is accepted by parse_coordinate
(which uppercases first), although it is not of the claimed shape — its row
letter is not an uppercase A..J letter. -/
theorem parse_coordinate_lowercase_counterexample :
    parse_coordinate ['a', '1'] = .ok (0, 0) ∧ ¬ claimedCoordForm ['a', '1'] :=
  ⟨rfl, by decide⟩

/-- C8 (amended): parse_coordinate first strips whitespace and uppercases;
it succeeds exactly on inputs whose normalized token has length 2 to 3, an
uppercase row letter in A..J and a numeric column of value 1..10, and then
returns the canonical pair (row 0..9, col 0..9); every input whose normalized
token deviates is rejected with an input error. -/
theorem parse_coordinate_characterization :
    (∀ (input : List Char) (r c : Nat),
      parse_coordinate input = .ok (r, c) →
        claimedCoordForm ((pyStrip input).map Char.toUpper) ∧
        r = (((pyStrip input).map Char.toUpper).headD ' ').toNat - ('A').toNat ∧
        c = digitsToNat (((pyStrip input).map Char.toUpper).tail) - 1 ∧
        r < 10 ∧ c < 10) ∧
    (∀ input : List Char,
      claimedCoordForm ((pyStrip input).map Char.toUpper) →
        parse_coordinate input =
          .ok ((((pyStrip input).map Char.toUpper).headD ' ').toNat - ('A').toNat,
               digitsToNat (((pyStrip input).map Char.toUpper).tail) - 1)) := by
  have hA : ('A').toNat = 65 := rfl
  have hJ : ('J').toNat = 74 := rfl
  have hB : BOARD_SIZE = 10 := rfl
  constructor
  · intro input r c h
    unfold parse_coordinate at h
    simp only [] at h
    split_ifs at h with h1 h2 h3 h4
    have hpair := Except.ok.inj h
    rw [Prod.mk.injEq] at hpair
    obtain ⟨hr, hc⟩ := hpair
    rw [hA] at h2
    rw [hB] at h2 h4
    refine ⟨⟨h1.1, h1.2, ?_, ?_, h3, ?_, ?_⟩, ?_, ?_, ?_, ?_⟩ <;> omega
  · intro input hform
    obtain ⟨hl1, hl2, hr1, hr2, hdig, hv1, hv2⟩ := hform
    rw [hA] at hr1
    rw [hJ] at hr2
    unfold parse_coordinate
    simp only []
    rw [if_neg (not_not_intro ⟨hl1, hl2⟩)]
    rw [if_neg (not_not_intro ⟨by omega, by rw [hB]; omega⟩)]
    rw [if_neg (not_not_intro hdig)]
    rw [if_neg (not_not_intro ⟨by omega, by rw [hB]; omega,
      by omega, by rw [hB]; omega⟩)]
    simp only [Except.ok.injEq, Prod.mk.injEq]
    constructor <;> omega

/-- Witness for C8: the lowercase token b7 normalizes to B7 and parses to
(1, 6); the canonical token A1 satisfies the claimed shape and parses. -/
theorem parse_coordinate_characterization_witness :
    (claimedCoordForm ((pyStrip ['b', '7']).map Char.toUpper) ∧
      1 = (((pyStrip ['b', '7']).map Char.toUpper).headD ' ').toNat - ('A').toNat ∧
      6 = digitsToNat (((pyStrip ['b', '7']).map Char.toUpper).tail) - 1 ∧
      (1 : Nat) < 10 ∧ (6 : Nat) < 10) ∧
    parse_coordinate ['A', '1'] =
      .ok ((((pyStrip ['A', '1']).map Char.toUpper).headD ' ').toNat - ('A').toNat,
           digitsToNat (((pyStrip ['A', '1']).map Char.toUpper).tail) - 1) :=
  ⟨parse_coordinate_characterization.1 ['b', '7'] 1 6 rfl,
    parse_coordinate_characterization.2 ['A', '1'] (by decide)⟩

/-! ### run_multiplayer_game, turn phase (battleship.py) -/

def INACTIVITY_TIMEOUT : Nat := 30

def MAX_TIMEOUTS : Nat := 2

/-- The mutable state of the main game loop of run_multiplayer_game that the
per-turn event handling touches: the turn counter (even turns belong to the
first player), the consecutive-timeout strike dictionary, the per-player
boards dictionary, and the loop flag. -/
structure TurnState where
  turn_count : Nat
  timeout_count : String → Nat
  boards : String → Board
  game_active : Bool

/-- The outcome of awaiting the active player's move under the inactivity
budget: either the budget elapsed with no input (PlayerTimeoutException from
recv_msg_from_player) or a line arrived in time. The disconnect paths are
handled by separate code not modelled here. -/
inductive TurnEvent where
  | timeout : TurnEvent
  | line (guess_input : String) : TurnEvent

/-- The result of handling one awaited input: the new loop state plus the
text messages sent to the players, in order (recipient, text). Board block
sends and spectator broadcasts are elided. -/
structure StepResult where
  state : TurnState
  msgs : List (String × String)

/-- Embedding of the per-event handling of the main game loop of
run_multiplayer_game (battleship.py): the active player is chosen by the
parity of turn_count; a timeout increments that player's strike counter and
either forfeits the game on reaching MAX_TIMEOUTS or notifies both players
(leaving turn_count untouched, as the source does); a received line first
resets the active player's strike counter to 0, then either quits, fails the
coordinate parse (the ValueError handler sends one error message to the
active player and continues the loop unchanged), or fires at the opponent
board, ending the game when all ships are sunk and otherwise advancing
turn_count. -/
def turnStep (username1 username2 : String) (st : TurnState) (ev : TurnEvent) :
    StepResult :=
  let current_player_tag := if st.turn_count % 2 = 0 then username1 else username2
  let opponent_player_tag := if st.turn_count % 2 = 0 then username2 else username1
  let target_board := st.boards opponent_player_tag
  match ev with
  | .timeout =>
    let tc := Function.update st.timeout_count current_player_tag
      (st.timeout_count current_player_tag + 1)
    if MAX_TIMEOUTS ≤ tc current_player_tag then
      { state := { st with timeout_count := tc, game_active := false }
        msgs := [(current_player_tag,
            "You have forfeited the game due to " ++ toString MAX_TIMEOUTS ++
              " consecutive timeouts. Game over."),
          (opponent_player_tag,
            "\n" ++ current_player_tag ++ " has forfeited the game due to " ++
              toString MAX_TIMEOUTS ++ " consecutive timeouts. You win!")] }
    else
      { state := { st with timeout_count := tc }
        msgs := [(current_player_tag,
            "You did not respond in time. Your turn has been skipped. Warning: " ++
              toString (tc current_player_tag) ++ "/" ++ toString MAX_TIMEOUTS ++
              " timeouts."),
          (opponent_player_tag,
            "\n" ++ current_player_tag ++
              " did not respond in time. Their turn has been skipped. Warning: They have " ++
              toString (tc current_player_tag) ++ "/" ++ toString MAX_TIMEOUTS ++
              " timeouts.")] }
  | .line guess_input =>
    let st := { st with
      timeout_count := Function.update st.timeout_count current_player_tag 0 }
    if guess_input.data.map Char.toLower = "quit".data then
      { state := { st with game_active := false }
        msgs := [(current_player_tag, "You have chosen to quit the game. Game over."),
          (opponent_player_tag,
            "\n" ++ current_player_tag ++ " has chosen to quit the game. Game over.")] }
    else
      match parse_coordinate guess_input.data with
      | .error e_parse_fire =>
        { state := st
          msgs := [(current_player_tag,
            "[!] Invalid move input (\x27" ++ guess_input ++ "\x27): " ++
              e_parse_fire ++ ". Please try again this turn.")] }
      | .ok (row, col) =>
        let fr := fire_at target_board row col
        let result := fr.1.1
        let sunk_ship := fr.1.2
        let boards2 := Function.update st.boards opponent_player_tag fr.2
        let msg_for_active_player := "You fired at " ++ String.mk (guess_input.data.map Char.toUpper) ++ ": " ++
          (if result = "hit" then
            match sunk_ship with
            | some s => "HIT! You sank their " ++ s ++ "!"
            | none => "HIT!"
          else if result = "miss" then "MISS."
          else if result = "already_shot" then "ALREADY SHOT there. Your turn is wasted."
          else "")
        let msg_for_opponent := current_player_tag ++ " fired at " ++
          String.mk (guess_input.data.map Char.toUpper) ++ ": " ++
          (if result = "hit" then
            match sunk_ship with
            | some s => "HIT! Your " ++ s ++ " has been SUNK!"
            | none => "HIT on one of your ships!"
          else if result = "miss" then "MISS."
          else if result = "already_shot" then "They fired at an already targeted location."
          else "")
        if all_ships_sunk fr.2 then
          let final_win_msg := "GAME OVER! " ++ current_player_tag ++ " WINS! All " ++
            opponent_player_tag ++ "\x27s ships are sunk."
          { state := { st with boards := boards2, game_active := false }
            msgs := [(current_player_tag, msg_for_active_player),
              (opponent_player_tag, msg_for_opponent),
              (current_player_tag, final_win_msg),
              (opponent_player_tag, final_win_msg)] }
        else
          { state := { st with boards := boards2, turn_count := st.turn_count + 1 }
            msgs := [(current_player_tag, msg_for_active_player),
              (opponent_player_tag, msg_for_opponent)] }

/-- The turn-phase state at the start of a match between alice and bob:
alice active, no strikes, fresh boards. -/
def c3State : TurnState :=
  { turn_count := 0
    timeout_count := fun _ => 0
    boards := fun _ => mkBoard BOARD_SIZE
    game_active := true }

/-- C3 evaluation: in c3State (alice active, no strikes) a timeout increments
the strike count to 1 and notifies both players with the 1/2 strike count,
but leaves turn_count at 0, so the active player of the next iteration is
alice again — the turn does NOT swap, although the sent messages say the turn
has been skipped; a second alice timeout reaches MAX_TIMEOUTS = 2 and ends
the game with the you-win message to bob. -/
theorem timeout_strike_no_turn_swap :
    (turnStep "alice" "bob" c3State .timeout).state.timeout_count "alice" = 1 ∧
    (turnStep "alice" "bob" c3State .timeout).state.game_active = true ∧
    (turnStep "alice" "bob" c3State .timeout).msgs =
      [("alice",
        "You did not respond in time. Your turn has been skipped. Warning: 1/2 timeouts."),
       ("bob",
        "\nalice did not respond in time. Their turn has been skipped. Warning: They have 1/2 timeouts.")] ∧
    (turnStep "alice" "bob" c3State .timeout).state.turn_count = 0 ∧
    (if (turnStep "alice" "bob" c3State .timeout).state.turn_count % 2 = 0
      then "alice" else "bob") = "alice" ∧
    (turnStep "alice" "bob"
        (turnStep "alice" "bob" c3State .timeout).state .timeout).state.timeout_count
      "alice" = 2 ∧
    (turnStep "alice" "bob"
        (turnStep "alice" "bob" c3State .timeout).state .timeout).state.game_active = false ∧
    (turnStep "alice" "bob"
        (turnStep "alice" "bob" c3State .timeout).state .timeout).msgs =
      [("alice", "You have forfeited the game due to 2 consecutive timeouts. Game over."),
       ("bob", "\nalice has forfeited the game due to 2 consecutive timeouts. You win!")] :=
  ⟨rfl, rfl, rfl, rfl, rfl, rfl, rfl, rfl⟩

/-- A mid-match state where alice is active and already has one strike. -/
def c4State : TurnState :=
  { turn_count := 0
    timeout_count := fun u => if u = "alice" then 1 else 0
    boards := fun _ => mkBoard BOARD_SIZE
    game_active := true }

/-- C4 counterexample: with one strike on the clock, the invalid token ZZ
does not leave timeout_count unchanged — receiving any input resets the
active player's counter to 0 before the parse is attempted. -/
theorem invalid_input_resets_strikes_counterexample :
    c4State.timeout_count "alice" = 1 ∧
    (turnStep "alice" "bob" c4State (.line "ZZ")).state.timeout_count "alice" = 0 ∧
    (turnStep "alice" "bob" c4State (.line "ZZ")).state.timeout_count "alice" ≠
      c4State.timeout_count "alice" :=
  ⟨rfl, rfl, by decide⟩

/-- C4 (amended): when the submitted token is not quit and fails the strict
coordinate parse, the handler sends exactly one input-error message and only
to the active player, does not swap the turn, does not end the game, leaves
the boards untouched, and re-awaits the same player's input with a fresh
inactivity budget; the active player's timeout_count is not incremented but
reset to 0 (the reset fires on any received input, before parsing), every
other counter being untouched. -/
theorem invalid_input_same_turn (username1 username2 : String) (st : TurnState)
    (guess e : String)
    (hq : ¬ guess.data.map Char.toLower = "quit".data)
    (hp : parse_coordinate guess.data = .error e) :
    (turnStep username1 username2 st (.line guess)).state.turn_count = st.turn_count ∧
    (turnStep username1 username2 st (.line guess)).state.game_active = st.game_active ∧
    (turnStep username1 username2 st (.line guess)).state.boards = st.boards ∧
    (turnStep username1 username2 st (.line guess)).state.timeout_count =
      Function.update st.timeout_count
        (if st.turn_count % 2 = 0 then username1 else username2) 0 ∧
    (turnStep username1 username2 st (.line guess)).msgs =
      [((if st.turn_count % 2 = 0 then username1 else username2),
        "[!] Invalid move input (\x27" ++ guess ++ "\x27): " ++ e ++
          ". Please try again this turn.")] := by
  simp only [turnStep, if_neg hq, hp]
  simp

/-- Witness for the amended C4 at the concrete state with one alice strike
and the token ZZ. -/
theorem invalid_input_same_turn_witness :
    (¬ ("ZZ" : String).data.map Char.toLower = "quit".data) ∧
    parse_coordinate ("ZZ" : String).data =
      .error "Invalid row letter \x27Z\x27. Must be A-J." ∧
    (turnStep "alice" "bob" c4State (.line "ZZ")).state.turn_count =
      c4State.turn_count ∧
    (turnStep "alice" "bob" c4State (.line "ZZ")).state.timeout_count =
      Function.update c4State.timeout_count
        (if c4State.turn_count % 2 = 0 then "alice" else "bob") 0 := by
  have hq : ¬ ("ZZ" : String).data.map Char.toLower = "quit".data := by decide
  have hp : parse_coordinate ("ZZ" : String).data =
      .error "Invalid row letter \x27Z\x27. Must be A-J." := rfl
  have h := invalid_input_same_turn "alice" "bob" c4State "ZZ"
    "Invalid row letter \x27Z\x27. Must be A-J." hq hp
  exact ⟨hq, hp, h.1, h.2.2.2.1⟩

end BEER
